import Mathlib

/-!
# Verification of the STAR-voting core (`shared/src/star_logic.rs`)

This file is a shallow embedding, in Lean 4, of the tallying / ranking /
runoff engine of the star-voting repository, together with proofs and
refutations of the specification's claims about it.

Modelling conventions:

* Rust `HashMap<K, V>` values are modelled as association lists.  The order
  of the list models the map's *iteration order*, which Rust's `HashMap`
  (with its randomly seeded `RandomState` hasher) leaves unspecified: it is
  generally unrelated to insertion order and can differ between two maps
  that received exactly the same insertions.  Accordingly,
  `Election.add_option` takes an extra `pos` argument giving the position at
  which the hasher happens to place the new entry in iteration order; the
  caller of the Rust API has no control over it.
* `u32` / `u64` counters are modelled as `Nat` and the `i32` running total
  as `Nat` (every recorded score is between 0 and 5, so the Rust total is
  always non-negative, and no claim exercises values anywhere near the
  `i32`/`u32` bounds, so wrap-around is not modelled).  `i8` score inputs
  are modelled as `Int` because rejection of negative inputs matters.
* Fallible Rust functions returning `Result<A, VotingError<T>>` become
  `Except (VotingError T) A`.  Rust methods that mutate `&mut self` and
  return `Result` become functions returning the pair
  `Except (VotingError T) Unit × Election T`, the second component being
  the state *after* the call — including states left behind by failed
  calls, which the Rust code can also leave partially mutated.
* `sort_unstable_by` is modelled by `List.insertionSort`.  The comparator
  below returns `Ordering.eq` only on elements with equal `idx`, and the
  enumeration indices `idx` of the sort input are pairwise distinct, so the
  comparator is antisymmetric on the input and the sorted permutation is
  unique; any correct sort — stable or not — produces the same list, hence
  instability is irrelevant.
-/

namespace StarLogic

/-- Rust `enum Score { Zero, One, Two, Three, Four, Five }`. -/
inductive Score where
  | zero
  | one
  | two
  | three
  | four
  | five
deriving DecidableEq

/-- Rust `Score::as_i8` (always in 0..=5, hence returned as `Nat`). -/
def Score.toNat : Score → Nat
  | .zero => 0
  | .one => 1
  | .two => 2
  | .three => 3
  | .four => 4
  | .five => 5

/-- Rust `impl TryFrom<i8> for Score`: the `match` accepts exactly 0..=5 and
returns the offending value otherwise. -/
def Score.tryFrom (v : Int) : Except Int Score :=
  if v = 0 then .ok .zero
  else if v = 1 then .ok .one
  else if v = 2 then .ok .two
  else if v = 3 then .ok .three
  else if v = 4 then .ok .four
  else if v = 5 then .ok .five
  else .error v

/-- Rust `enum VotingError<T>`. -/
inductive VotingError (T : Type) where
  | invalidScore (v : Int)
  | invalidOption (t : T)
  | duplicateOption (t : T)
  | insufficientOptions
  | firstPlaceTie
  | secondPlaceTie
deriving DecidableEq

/-- Rust `struct Ballot<T> { scores: HashMap<T, Score> }`.  The list models
the map's entries in iteration order; keys are unique in a real `HashMap`
(hypotheses state this where it is needed). -/
structure Ballot (T : Type) where
  scores : List (T × Score)
deriving DecidableEq

/-- Rust `ballot.scores().get(t)` (`HashMap::get`). -/
def Ballot.get [DecidableEq T] (b : Ballot T) (t : T) : Option Score :=
  (b.scores.find? fun p => decide (p.1 = t)).map fun p => p.2

/-- The score validation loop inside Rust `Ballot::new`: the iterator
`map(...).collect::<Result<_, _>>()` stops at the first out-of-range value
in iteration order. -/
def validateScores {T : Type} : List (T × Int) → Except (VotingError T) (List (T × Score))
  | [] => .ok []
  | (k, v) :: rest =>
    match Score.tryFrom v with
    | .error n => .error (.invalidScore n)
    | .ok s =>
      match validateScores rest with
      | .error e => .error e
      | .ok tail => .ok ((k, s) :: tail)

/-- Rust `Ballot::new(scores_map)`. -/
def Ballot.new {T : Type} (scores_map : List (T × Int)) :
    Except (VotingError T) (Ballot T) :=
  match validateScores scores_map with
  | .error e => .error e
  | .ok scores => .ok ⟨scores⟩

/-- Rust `struct ScoreMetrics { total: i32, by_value: [u32; 6] }`.
`by_value` is a list that is always of length 6 for metrics produced by the
code (`ScoreMetrics.default` and `record` preserve this). -/
structure ScoreMetrics where
  total : Nat
  by_value : List Nat
deriving DecidableEq

/-- Rust `ScoreMetrics::default()`. -/
def ScoreMetrics.default : ScoreMetrics :=
  { total := 0, by_value := [0, 0, 0, 0, 0, 0] }

/-- Rust `ScoreMetrics::record`: `total += score; by_value[score] += 1`. -/
def ScoreMetrics.record (m : ScoreMetrics) (s : Score) : ScoreMetrics :=
  { total := m.total + s.toNat,
    by_value := m.by_value.set s.toNat (m.by_value.getD s.toNat 0 + 1) }

/-- Rust `by_value[1..].iter().sum()` — the count of non-zero scores. -/
def nonzeroCount (m : ScoreMetrics) : Nat :=
  (m.by_value.drop 1).sum

/-- Rust `struct VotingOption<T> { value, metrics, order }`.  `order` is the
registration sequence number assigned by `add_option`. -/
structure VotingOption (T : Type) where
  value : T
  metrics : ScoreMetrics
  order : Nat
deriving DecidableEq

/-- Rust `VotingOption::new`. -/
def VotingOption.new (value : T) (order : Nat) : VotingOption T :=
  { value := value, metrics := ScoreMetrics.default, order := order }

/-- Rust `struct RunoffResult<T>`. -/
structure RunoffResult (T : Type) where
  winner : T
  finalist1 : T
  finalist2 : T
  head_to_head : Nat × Nat
deriving DecidableEq

/-- Rust `struct SortedOption<'a, T> { option, idx }`: a candidate paired
with its index in the `options.values().enumerate()` traversal. -/
structure SortedOption (T : Type) where
  option : VotingOption T
  idx : Nat
deriving DecidableEq

/-- Rust `struct Election<T>`: `options` holds the `HashMap`'s values in
iteration order, `ballots` is the accepted-ballot log, `option_order` the
registration counter. -/
structure Election (T : Type) where
  options : List (VotingOption T)
  ballots : List (Ballot T)
  option_order : Nat
deriving DecidableEq

/-- Rust `Election::new()`. -/
def Election.new {T : Type} : Election T :=
  { options := [], ballots := [], option_order := 0 }

/-- Insertion of a value at a given position of a list: models where a
`HashMap::insert` happens to place the new entry in iteration order. -/
def insertAt (xs : List α) (pos : Nat) (x : α) : List α :=
  xs.take pos ++ x :: xs.drop pos

/-- Rust `Election::add_option`.  `pos` is the position the hasher gives the
new entry in iteration order (not chosen by the caller; see the header). -/
def Election.add_option [DecidableEq T] (s : Election T) (t : T) (pos : Nat) :
    Except (VotingError T) (Election T) :=
  if s.options.any fun o => decide (o.value = t) then
    .error (.duplicateOption t)
  else
    .ok { options := insertAt s.options pos (VotingOption.new t s.option_order),
          ballots := s.ballots,
          option_order := s.option_order + 1 }

/-- The effect of `self.options.get_mut(option)?.metrics.record(*score)`
on the option list: the entry holding the candidate has its metrics
updated. -/
def updOption [DecidableEq T] (t : T) (sc : Score) (o : VotingOption T) :
    VotingOption T :=
  if o.value = t then { o with metrics := o.metrics.record sc } else o

/-- The `for (option, score) in ballot.scores()` loop of Rust
`Election::cast_ballot`: each entry whose candidate is registered has its
score recorded into that candidate's metrics; the first unregistered
candidate (in iteration order) aborts the loop with `InvalidOption`,
leaving the updates already made in place.  (`HashMap::get_mut` updates the
unique entry with the given key; mapping over all entries agrees with this
because option values are unique.) -/
def castLoop [DecidableEq T] :
    List (VotingOption T) → List (T × Score) →
      Except (VotingError T) Unit × List (VotingOption T)
  | opts, [] => (.ok (), opts)
  | opts, (t, sc) :: rest =>
    if opts.any fun o => decide (o.value = t) then
      castLoop (opts.map (updOption t sc)) rest
    else
      (.error (.invalidOption t), opts)

/-- Rust `Election::cast_ballot`.  Returns the `Result` together with the
state after the call; on failure the ballot is not appended but metric
updates made before the failing entry remain (the Rust loop mutates
`self.options` in place and `?`-returns mid-loop). -/
def Election.cast_ballot [DecidableEq T] (s : Election T) (b : Ballot T) :
    Except (VotingError T) Unit × Election T :=
  match castLoop s.options b.scores with
  | (.ok _, opts) =>
    (.ok (), { s with options := opts, ballots := s.ballots ++ [b] })
  | (.error e, opts) =>
    (.error e, { s with options := opts })

/-- Rust `Election::get_head_to_head_votes`: fold over the ballot log;
a ballot scoring both candidates adds one vote for the strictly higher
score, nothing on equal scores; a ballot missing either candidate adds
nothing. -/
def Election.get_head_to_head_votes [DecidableEq T] (s : Election T)
    (option1 option2 : T) : Nat × Nat :=
  s.ballots.foldl
    (fun v b =>
      match b.get option1, b.get option2 with
      | some s1, some s2 =>
        match compare s1.toNat s2.toNat with
        | .gt => (v.1 + 1, v.2)
        | .lt => (v.1, v.2 + 1)
        | .eq => v
      | _, _ => v)
    (0, 0)

/-- The comparator passed to `sort_unstable_by` in
`Election::sort_options_by_score`: total descending, then count of
non-zero scores descending, then `by_value[5]` descending, `by_value[4]`
descending, `by_value[0]` ascending, `by_value[1]` ascending, and finally
the enumeration index `idx` ascending. -/
def cmpOptions (a b : SortedOption T) : Ordering :=
  (compare b.option.metrics.total a.option.metrics.total).then <|
    (compare (nonzeroCount b.option.metrics) (nonzeroCount a.option.metrics)).then <|
      (compare (b.option.metrics.by_value.getD 5 0) (a.option.metrics.by_value.getD 5 0)).then <|
        (compare (b.option.metrics.by_value.getD 4 0) (a.option.metrics.by_value.getD 4 0)).then <|
          (compare (a.option.metrics.by_value.getD 0 0) (b.option.metrics.by_value.getD 0 0)).then <|
            (compare (a.option.metrics.by_value.getD 1 0) (b.option.metrics.by_value.getD 1 0)).then
              (compare a.idx b.idx)

/-- The non-strict order induced by `cmpOptions`, used as the sorting
relation (an element precedes another when the comparator does not say
`Greater`). -/
def sortLE (a b : SortedOption T) : Prop :=
  cmpOptions a b ≠ Ordering.gt

instance {T : Type} : DecidableRel (@sortLE T) := fun a b =>
  inferInstanceAs (Decidable (cmpOptions a b ≠ Ordering.gt))

/-- Rust `Election::sort_options_by_score`: error on an empty candidate
set; otherwise enumerate the `HashMap` values in iteration order and sort
with `cmpOptions` (see the header note on `sort_unstable_by`). -/
def Election.sort_options_by_score [DecidableEq T] (s : Election T) :
    Except (VotingError T) (List (SortedOption T)) :=
  if s.options.isEmpty then
    .error .insufficientOptions
  else
    .ok (List.insertionSort sortLE
      (s.options.enum.map fun p => ⟨p.2, p.1⟩))

/-- Rust `slice.windows(2)` as a list of adjacent pairs. -/
def windows2 (xs : List α) : List (α × α) :=
  xs.zip xs.tail

/-- Rust `Election::is_perfect_tie`: looks only at the *first* adjacent
pair of the given slice (`windows(2).next()`); true when that pair has
identical `by_value` arrays (and, redundantly, equal non-zero counts). -/
def Election.is_perfect_tie (candidates : List (SortedOption T)) : Bool :=
  match (windows2 candidates).head? with
  | none => false
  | some w =>
    decide (w.1.option.metrics.by_value = w.2.option.metrics.by_value) &&
      decide (nonzeroCount w.1.option.metrics = nonzeroCount w.2.option.metrics)

/-- The `take_while` predicate of `select_finalists`: adjacent candidates
with equal totals. -/
def eqTotal (w : SortedOption T × SortedOption T) : Bool :=
  decide (w.1.option.metrics.total = w.2.option.metrics.total)

/-- Rust `Election::select_finalists`.  The branch structure follows the
source; `a` and `b` are `sorted[0]` and `sorted[1]` (the `sorted.len() < 2`
guard is the wildcard arm).  In the `first_ties > 1` branch the returned
pair `(tied[0], tied[1])` equals `(sorted[0], sorted[1])` because
`tied = &sorted[..first_ties]` with `first_ties ≥ 2`; in the
`second_ties > 1` branches the returned pair `(sorted[0], tied[0])` equals
`(sorted[0], sorted[1])` because `tied = &sorted[1..=second_ties]`. -/
def Election.select_finalists [DecidableEq T] (s : Election T) :
    Except (VotingError T) (VotingOption T × VotingOption T) :=
  match s.sort_options_by_score with
  | .error e => .error e
  | .ok sorted =>
    match sorted with
    | a :: b :: _ =>
      let first_ties := ((windows2 sorted).takeWhile eqTotal).length + 1
      if 1 < first_ties then
        let tied := sorted.take first_ties
        if Election.is_perfect_tie tied then .error .firstPlaceTie
        else .ok (a.option, b.option)
      else
        let second_ties := (((windows2 sorted).drop 1).takeWhile eqTotal).length + 1
        if 1 < second_ties then
          let tied := (sorted.drop 1).take second_ties
          if Election.is_perfect_tie tied then
            if tied.all fun c =>
                let v := s.get_head_to_head_votes a.option.value c.option.value
                decide (v.2 < v.1) then
              .ok (a.option, b.option)
            else .error .secondPlaceTie
          else .ok (a.option, b.option)
        else .ok (a.option, b.option)
    | _ => .error .insufficientOptions

/-- Rust `Election::determine_winner`.  (The `additional` vector of
auxiliary matchups computed by the source is dead code — it is built and
dropped without entering the returned `RunoffResult` — so it is omitted
here.) -/
def Election.determine_winner [DecidableEq T] (s : Election T) :
    Except (VotingError T) (RunoffResult T) :=
  match s.sort_options_by_score with
  | .error e => .error e
  | .ok sorted =>
    if sorted.length < 2 then .error .insufficientOptions
    else
      match s.select_finalists with
      | .error e => .error e
      | .ok (f1, f2) =>
        let p := s.get_head_to_head_votes f1.value f2.value
        let winner := if p.1 ≥ p.2 then f1.value else f2.value
        .ok { winner := winner, finalist1 := f1.value, finalist2 := f2.value,
              head_to_head := p }

/-- The net effect of a successful cast loop on one option: fold `record`
over the ballot entries whose key is this option's candidate. -/
def applyBallotTo [DecidableEq T] (entries : List (T × Score))
    (o : VotingOption T) : VotingOption T :=
  { o with
      metrics := (entries.filter fun e => decide (e.1 = o.value)).foldl
          (fun acc e => acc.record e.2) o.metrics }

/-- The per-ballot contribution predicate of the head-to-head count, as the
spec words it: the ballot records a score for both candidates and strictly
prefers the first. -/
def ballotPrefers [DecidableEq T] (o1 o2 : T) (b : Ballot T) : Bool :=
  match b.get o1, b.get o2 with
  | some s1, some s2 => decide (s2.toNat < s1.toNat)
  | _, _ => false

/-- Sum of `position * entry` over a list read from offset `k`. -/
def weightedFrom (k : Nat) : List Nat → Nat
  | [] => 0
  | x :: xs => k * x + weightedFrom (k + 1) xs

/-- Sum of `value * by_value[value]` over the score values, indexing the
frequency list by position. -/
def weightedSum (l : List Nat) : Nat :=
  weightedFrom 0 l

/-- Number of ballots in a log that record a score for the candidate. -/
def ballotCountFor [DecidableEq T] (bs : List (Ballot T)) (t : T) : Nat :=
  bs.countP fun b => (b.get t).isSome

/-- The consistency invariant tying each candidate's aggregate metrics to
the ballot log: frequency lists have length 6, the running total equals the
weighted sum of the frequencies, the frequencies sum to the number of
logged ballots scoring the candidate, and every logged ballot references
only registered candidates. -/
def MetricsConsistent [DecidableEq T] (s : Election T) : Prop :=
  (∀ o ∈ s.options,
    o.metrics.by_value.length = 6 ∧
    o.metrics.total = weightedSum o.metrics.by_value ∧
    o.metrics.by_value.sum = ballotCountFor s.ballots o.value) ∧
  (∀ b ∈ s.ballots, ∀ p ∈ b.scores, ∃ o ∈ s.options, o.value = p.1)

/-- An API call on an election: a registration (with the iteration-order
position the hasher assigns, see the header) or a ballot cast. -/
inductive Op (T : Type) where
  | addOption (t : T) (pos : Nat)
  | castBallot (b : Ballot T)

/-- State after one call, whether it succeeded or failed: a failed
`add_option` leaves the state unchanged, while `cast_ballot` returns its
post-state in either case. -/
def applyOp [DecidableEq T] (s : Election T) : Op T → Election T
  | .addOption t pos =>
    match s.add_option t pos with
    | .ok s' => s'
    | .error _ => s
  | .castBallot b => (s.cast_ballot b).2

/-- State after a sequence of calls. -/
def runOps [DecidableEq T] (s : Election T) : List (Op T) → Election T
  | [] => s
  | op :: rest => runOps (applyOp s op) rest

/-- One call is acceptable for the metrics-invariant claim when, if it is a
ballot cast, the ballot has unique keys (as every real `HashMap`-backed
ballot does) and the cast succeeds in the state where it is executed. -/
def opOk [DecidableEq T] (s : Election T) : Op T → Prop
  | .addOption _ _ => True
  | .castBallot b => (b.scores.map Prod.fst).Nodup ∧ (s.cast_ballot b).1 = .ok ()

/-- Every `cast_ballot` of the call sequence has unique keys and succeeds
at its point of execution (`add_option` calls may succeed or fail). -/
def opsOk [DecidableEq T] (s : Election T) : List (Op T) → Prop
  | [] => True
  | op :: rest => opOk s op ∧ opsOk (applyOp s op) rest

/-- Harness: perform a sequence of `add_option` calls (each paired with the
iteration-order position the hasher gives the new entry), stopping at the
first error — the pattern of the repository's own test helpers. -/
def runAdds [DecidableEq T] (s : Election T) :
    List (T × Nat) → Except (VotingError T) (Election T)
  | [] => .ok s
  | (t, pos) :: rest =>
    match s.add_option t pos with
    | .error e => .error e
    | .ok s' => runAdds s' rest

/-- Harness: cast a sequence of ballots, stopping at the first error. -/
def runCasts [DecidableEq T] (s : Election T) :
    List (Ballot T) → Except (VotingError T) (Election T)
  | [] => .ok s
  | b :: rest =>
    match s.cast_ballot b with
    | (.ok _, s') => runCasts s' rest
    | (.error e, _) => .error e

/-- Harness: build an election from registrations then ballots. -/
def buildE [DecidableEq T] (adds : List (T × Nat)) (bs : List (Ballot T)) :
    Except (VotingError T) (Election T) :=
  match runAdds Election.new adds with
  | .error e => .error e
  | .ok s => runCasts s bs

/-- A two-candidate election whose `HashMap` happens to iterate its values
in the order [candidate 1, candidate 0] although candidate 0 was registered
first (`order` fields 1 and 0): the state produced by
`add_option 0; add_option 1` when the hasher places the second entry ahead
of the first in iteration order. -/
def exSwapped : Election Nat :=
  { options := [⟨1, ScoreMetrics.default, 1⟩, ⟨0, ScoreMetrics.default, 0⟩],
    ballots := [], option_order := 2 }

/-- A two-candidate perfect first-place tie: both candidates scored 5 by
the same two ballots (the repository's `test_ties` first scenario). -/
def exTie : Election Nat :=
  (buildE [(0, 0), (1, 1)]
    [⟨[(0, .five), (1, .five)]⟩,
     ⟨[(0, .five), (1, .five)]⟩]).toOption.getD Election.new

/-- A three-candidate election where the leader (candidate 0) strictly
dominates the perfectly tied pair (candidates 1 and 2) head-to-head. -/
def exDominated : Election Nat :=
  (buildE [(0, 0), (1, 1), (2, 2)]
    [⟨[(0, .five), (1, .four), (2, .four)]⟩,
     ⟨[(0, .five), (1, .four), (2, .four)]⟩]).toOption.getD Election.new

/-- A concrete election used by several witnesses: the repository's own
`test_winner_determination` scenario (candidates 0, 1, 2 and four ballots;
the expected outcome is winner 0 with finalists 0 and 1). -/
def exWinner : Election Nat :=
  (buildE [(0, 0), (1, 1), (2, 2)]
    [⟨[(0, .five), (1, .four), (2, .zero)]⟩,
     ⟨[(0, .four), (1, .three), (2, .zero)]⟩,
     ⟨[(0, .four), (1, .three), (2, .zero)]⟩,
     ⟨[(0, .three), (1, .two), (2, .zero)]⟩]).toOption.getD Election.new

end StarLogic

deriving instance DecidableEq for Except

namespace StarLogic

/-! ## Score and ballot validation (claim C8) -/

-- `Score::try_from` accepts exactly 0..=5; otherwise it returns the
-- offending value, which `Ballot::new` wraps in `InvalidScore`.
theorem tryFrom_cases (v : Int) :
    (Score.tryFrom v = .error v ∧ (v < 0 ∨ 5 < v)) ∨
    (∃ s, Score.tryFrom v = .ok s ∧ 0 ≤ v ∧ v ≤ 5) := by
  unfold Score.tryFrom
  split_ifs with h0 h1 h2 h3 h4 h5
  · exact .inr ⟨.zero, rfl, by omega⟩
  · exact .inr ⟨.one, rfl, by omega⟩
  · exact .inr ⟨.two, rfl, by omega⟩
  · exact .inr ⟨.three, rfl, by omega⟩
  · exact .inr ⟨.four, rfl, by omega⟩
  · exact .inr ⟨.five, rfl, by omega⟩
  · exact .inl ⟨rfl, by omega⟩

theorem validateScores_ok_iff {T : Type} (m : List (T × Int)) :
    (∃ l, validateScores m = .ok l) ↔ ∀ p ∈ m, 0 ≤ p.2 ∧ p.2 ≤ 5 := by
  induction m with
  | nil => simp [validateScores]
  | cons hd tl ih =>
    obtain ⟨k, v⟩ := hd
    rcases tryFrom_cases v with ⟨he, hb⟩ | ⟨sc, hs, hb⟩
    · simp only [validateScores, he]
      constructor
      · rintro ⟨l, hl⟩
        cases hl
      · intro hall
        have := hall (k, v) (by simp)
        omega
    · simp only [validateScores, hs]
      rcases htl : validateScores tl with e | l
      · constructor
        · rintro ⟨l, hl⟩
          cases hl
        · intro hall
          obtain ⟨l, hl⟩ := ih.mpr fun p hp => hall p (by simp [hp])
          rw [htl] at hl
          cases hl
      · constructor
        · rintro ⟨l', hl⟩
          intro p hp
          rcases List.mem_cons.mp hp with rfl | hp'
          · exact hb
          · exact (ih.mp ⟨l, htl⟩) p hp'
        · intro hall
          exact ⟨(k, sc) :: l, rfl⟩

theorem validateScores_error {T : Type} (m : List (T × Int)) (e : VotingError T) :
    validateScores m = .error e →
    ∃ v, e = VotingError.invalidScore v ∧ (v < 0 ∨ 5 < v) := by
  induction m with
  | nil =>
    intro h
    cases h
  | cons hd tl ih =>
    obtain ⟨k, v⟩ := hd
    intro h
    rcases tryFrom_cases v with ⟨he, hb⟩ | ⟨sc, hs, hb⟩
    · simp only [validateScores, he] at h
      injection h with h'
      exact ⟨v, h'.symm, hb⟩
    · simp only [validateScores, hs] at h
      rcases htl : validateScores tl with e' | l
      · rw [htl] at h
        injection h with h'
        exact ih (by rw [htl, h'])
      · rw [htl] at h
        cases h

/-- C8: `Ballot::new` succeeds if and only if every value of the input
mapping lies in 0..=5; on any out-of-range value (including negatives) the
whole construction fails with `InvalidScore` and no ballot is produced;
the empty mapping always yields a valid (empty) ballot. -/
theorem C8_ballot_new_validates {T : Type} (m : List (T × Int)) :
    ((∃ b, Ballot.new m = .ok b) ↔ ∀ p ∈ m, 0 ≤ p.2 ∧ p.2 ≤ 5) ∧
    (∀ e, Ballot.new m = .error e →
      ∃ v, e = VotingError.invalidScore v ∧ (v < 0 ∨ 5 < v)) ∧
    Ballot.new ([] : List (T × Int)) = .ok ⟨[]⟩ := by
  refine ⟨?_, ?_, rfl⟩
  · unfold Ballot.new
    rcases hm : validateScores m with e | l
    · constructor
      · rintro ⟨b, hb⟩
        cases hb
      · intro hall
        obtain ⟨l, hl⟩ := (validateScores_ok_iff m).mpr hall
        rw [hm] at hl
        cases hl
    · constructor
      · intro _
        exact (validateScores_ok_iff m).mp ⟨l, hm⟩
      · intro _
        exact ⟨⟨l⟩, rfl⟩
  · intro e h
    unfold Ballot.new at h
    rcases hm : validateScores m with e' | l
    · rw [hm] at h
      injection h with h'
      exact validateScores_error m e (by rw [hm, h'])
    · rw [hm] at h
      cases h

/-- Witness for C8: a concrete in-range entry, via the theorem at the
one-entry mapping `[(0, 3)]`. -/
theorem C8_witness : (0 : Int) ≤ 3 ∧ (3 : Int) ≤ 5 :=
  ((C8_ballot_new_validates [((0 : Nat), (3 : Int))]).1.mp
    ⟨⟨[(0, Score.three)]⟩, by decide⟩) (0, 3) (by decide)

/-! ## Idempotence of winner determination (claim C9) -/

/-- C9: `determine_winner` is read-only and idempotent.  In this embedding
the mutating operations (`add_option`, `cast_ballot`) return a post-state,
while `determine_winner` — Rust `&self` — takes the election and returns
only a result, so it cannot modify the election; two consecutive calls on
the same state with no intervening mutation therefore return identical
results (the same `RunoffResult` or the same error). -/
theorem C9_determine_winner_idempotent [DecidableEq T] (s : Election T) :
    s.determine_winner = s.determine_winner :=
  rfl

/-! ## Head-to-head counting and the winner rule (claim C6) -/

-- The fold of `get_head_to_head_votes`, run from an arbitrary accumulator,
-- adds exactly the number of ballots strictly preferring each finalist.
theorem h2h_fold [DecidableEq T] (o1 o2 : T) (bs : List (Ballot T))
    (acc : Nat × Nat) :
    bs.foldl
      (fun v b =>
        match b.get o1, b.get o2 with
        | some s1, some s2 =>
          match compare s1.toNat s2.toNat with
          | .gt => (v.1 + 1, v.2)
          | .lt => (v.1, v.2 + 1)
          | .eq => v
        | _, _ => v) acc =
    (acc.1 + bs.countP (ballotPrefers o1 o2),
     acc.2 + bs.countP (ballotPrefers o2 o1)) := by
  induction bs generalizing acc with
  | nil => simp
  | cons b tl ih =>
    rw [List.foldl_cons]
    rcases h1 : b.get o1 with _ | s1 <;> rcases h2 : b.get o2 with _ | s2
    · rw [ih, List.countP_cons, List.countP_cons]
      simp [ballotPrefers, h1, h2]
    · rw [ih, List.countP_cons, List.countP_cons]
      simp [ballotPrefers, h1, h2]
    · rw [ih, List.countP_cons, List.countP_cons]
      simp [ballotPrefers, h1, h2]
    · rcases Nat.lt_trichotomy s1.toNat s2.toNat with h | h | h
      · have hc : compare s1.toNat s2.toNat = .lt := Nat.compare_eq_lt.mpr h
        have hp1 : ballotPrefers o1 o2 b = false := by
          simp [ballotPrefers, h1, h2]
          omega
        have hp2 : ballotPrefers o2 o1 b = true := by
          simp [ballotPrefers, h1, h2]
          omega
        simp only [h1, h2, hc]
        rw [ih, List.countP_cons, List.countP_cons, hp1, hp2]
        simp
        omega
      · have hc : compare s1.toNat s2.toNat = .eq := Nat.compare_eq_eq.mpr h
        have hp1 : ballotPrefers o1 o2 b = false := by
          simp [ballotPrefers, h1, h2]
          omega
        have hp2 : ballotPrefers o2 o1 b = false := by
          simp [ballotPrefers, h1, h2]
          omega
        simp only [h1, h2, hc]
        rw [ih, List.countP_cons, List.countP_cons, hp1, hp2]
        simp
      · have hc : compare s1.toNat s2.toNat = .gt := Nat.compare_eq_gt.mpr h
        have hp1 : ballotPrefers o1 o2 b = true := by
          simp [ballotPrefers, h1, h2]
          omega
        have hp2 : ballotPrefers o2 o1 b = false := by
          simp [ballotPrefers, h1, h2]
          omega
        simp only [h1, h2, hc]
        rw [ih, List.countP_cons, List.countP_cons, hp1, hp2]
        simp
        omega

/-- C6: for every election and pair of finalists, the head-to-head count
equals (number of ballots scoring both and strictly preferring the first,
number of ballots scoring both and strictly preferring the second) — so a
ballot missing either finalist, or scoring them equally, contributes to
neither side; and whenever `determine_winner` succeeds it declares
finalist1 the winner exactly when votes1 >= votes2, and finalist2
otherwise. -/
theorem C6_head_to_head_and_winner_rule [DecidableEq T] (s : Election T)
    (f1 f2 : T) :
    s.get_head_to_head_votes f1 f2 =
      (s.ballots.countP (ballotPrefers f1 f2),
       s.ballots.countP (ballotPrefers f2 f1)) ∧
    (∀ r, s.determine_winner = .ok r →
      r.winner =
        if (s.get_head_to_head_votes r.finalist1 r.finalist2).2 ≤
            (s.get_head_to_head_votes r.finalist1 r.finalist2).1
        then r.finalist1 else r.finalist2) := by
  constructor
  · unfold Election.get_head_to_head_votes
    rw [h2h_fold]
    simp
  · intro r h
    unfold Election.determine_winner at h
    rcases hs : s.sort_options_by_score with e | sorted
    · rw [hs] at h
      cases h
    · rw [hs] at h
      dsimp only at h
      by_cases hl : sorted.length < 2
      · rw [if_pos hl] at h
        cases h
      · rw [if_neg hl] at h
        rcases hf : s.select_finalists with e | fs
        · rw [hf] at h
          cases h
        · rw [hf] at h
          obtain ⟨fo1, fo2⟩ := fs
          injection h with h'
          subst h'
          by_cases hp :
            (s.get_head_to_head_votes fo1.value fo2.value).2 ≤
              (s.get_head_to_head_votes fo1.value fo2.value).1
          · simp [hp, ge_iff_le]
          · simp [hp, ge_iff_le]

/-- Witness for C6's winner rule, at the `test_winner_determination`
scenario: the winner 0 is finalist1 since its head-to-head count wins. -/
theorem C6_witness :
    (0 : Nat) =
      if (exWinner.get_head_to_head_votes 0 1).2 ≤
          (exWinner.get_head_to_head_votes 0 1).1
      then (0 : Nat) else 1 :=
  (C6_head_to_head_and_winner_rule exWinner 0 1).2
    { winner := 0, finalist1 := 0, finalist2 := 1, head_to_head := (4, 0) }
    (by decide)

/-! ## Shape of successful finalist selection (claim C10) -/

-- Every successful branch of `select_finalists` returns the first two
-- entries of the sorted order: in the `first_ties > 1` branch
-- `(tied[0], tied[1])` are `sorted[0], sorted[1]`, and in the later
-- branches `(sorted[0], tied[0])` are again `sorted[0], sorted[1]`.
theorem select_finalists_ok [DecidableEq T] (s : Election T)
    (x y : VotingOption T) (h : s.select_finalists = .ok (x, y)) :
    ∃ a b rest, s.sort_options_by_score = .ok (a :: b :: rest) ∧
      x = a.option ∧ y = b.option := by
  unfold Election.select_finalists at h
  rcases hs : s.sort_options_by_score with e | sorted
  · rw [hs] at h
    cases h
  · rw [hs] at h
    dsimp only at h
    rcases sorted with _ | ⟨a, _ | ⟨b, rest⟩⟩
    · cases h
    · cases h
    · refine ⟨a, b, rest, rfl, ?_⟩
      split_ifs at h
      all_goals try dsimp only at h
      all_goals try split_ifs at h
      all_goals
        injection h with h'
        injection h' with hx hy
        exact ⟨hx.symm, hy.symm⟩

-- The sorted list of a non-empty election is a permutation of its options
-- (at the level of candidate identifiers).
theorem sorted_values_perm [DecidableEq T] (s : Election T)
    (sorted : List (SortedOption T))
    (h : s.sort_options_by_score = .ok sorted) :
    (sorted.map fun c => c.option.value).Perm
      (s.options.map VotingOption.value) := by
  unfold Election.sort_options_by_score at h
  by_cases he : s.options.isEmpty
  · rw [if_pos he] at h
    cases h
  · rw [if_neg he] at h
    injection h with h'
    subst h'
    have hp :=
      (List.perm_insertionSort (@sortLE T)
        (s.options.enum.map fun p => ⟨p.2, p.1⟩)).map
        fun c : SortedOption T => c.option.value
    rw [List.map_map] at hp
    have hfn :
        ((fun c : SortedOption T => c.option.value) ∘
          fun p : Nat × VotingOption T => (⟨p.2, p.1⟩ : SortedOption T)) =
        (VotingOption.value ∘ Prod.snd) := rfl
    rw [hfn, ← List.map_map, List.enum_map_snd] at hp
    exact hp

/-- C10: whenever `determine_winner` succeeds on an election whose
candidate identifiers are unique (a `HashMap` key invariant), the two
finalists are distinct candidates, the winner is one of them, and the
reported `head_to_head` pair is the head-to-head count of
(finalist1, finalist2) over the ballot log. -/
theorem C10_result_wellformed [DecidableEq T] (s : Election T)
    (r : RunoffResult T)
    (hnd : (s.options.map VotingOption.value).Nodup)
    (h : s.determine_winner = .ok r) :
    r.finalist1 ≠ r.finalist2 ∧
    (r.winner = r.finalist1 ∨ r.winner = r.finalist2) ∧
    r.head_to_head = s.get_head_to_head_votes r.finalist1 r.finalist2 := by
  unfold Election.determine_winner at h
  rcases hs : s.sort_options_by_score with e | sorted
  · rw [hs] at h
    cases h
  · rw [hs] at h
    dsimp only at h
    by_cases hl : sorted.length < 2
    · rw [if_pos hl] at h
      cases h
    · rw [if_neg hl] at h
      rcases hf : s.select_finalists with e | fs
      · rw [hf] at h
        cases h
      · rw [hf] at h
        obtain ⟨fo1, fo2⟩ := fs
        injection h with h'
        subst h'
        obtain ⟨a, b, rest, hsort, hx, hy⟩ := select_finalists_ok s fo1 fo2 hf
        subst hx
        subst hy
        refine ⟨?_, ?_, rfl⟩
        · have hperm := sorted_values_perm s _ hsort
          have hnd' : ((a :: b :: rest).map fun c => c.option.value).Nodup :=
            hperm.nodup_iff.mpr hnd
          simp only [List.map_cons, List.nodup_cons, List.mem_cons] at hnd'
          intro hEq
          exact hnd'.1 (Or.inl hEq)
        · by_cases hp :
            (s.get_head_to_head_votes a.option.value b.option.value).1 ≥
              (s.get_head_to_head_votes a.option.value b.option.value).2
          · left
            simp [hp]
          · right
            simp [hp]

/-- Witness for C10 at the `test_winner_determination` scenario. -/
theorem C10_witness :
    (0 : Nat) ≠ 1 ∧ ((0 : Nat) = 0 ∨ (0 : Nat) = 1) ∧
      ((4, 0) : Nat × Nat) = exWinner.get_head_to_head_votes 0 1 :=
  C10_result_wellformed exWinner
    { winner := 0, finalist1 := 0, finalist2 := 1, head_to_head := (4, 0) }
    (by decide) (by decide)

/-! ## Failed casts are not rolled back (claim C1) -/

/-- C1 (refutation; the claim is the intended behaviour, the code has a
bug): in the one-candidate election built by `add_option 0`, casting the
ballot `{0: 3, 1: 2}` (candidate 1 unregistered, entry for candidate 0
iterated first) fails with `InvalidOption 1` and appends nothing to the
ballot log — but it does *not* leave the election unchanged: candidate 0's
metrics have already been mutated (total 0 → 3, one score-3 bucket
increment), because the cast loop records each entry before discovering a
later invalid one and `?`-returns without rolling back. -/
theorem C1_cast_ballot_partial_mutation :
    (buildE [((0 : Nat), 0)] []).map
        (fun s => s.cast_ballot ⟨[(0, .three), (1, .two)]⟩) =
      .ok (.error (.invalidOption 1),
        { options := [⟨0, ⟨3, [0, 0, 0, 1, 0, 0]⟩, 0⟩],
          ballots := [], option_order := 1 }) ∧
    buildE [((0 : Nat), 0)] [] =
      .ok { options := [⟨0, ⟨0, [0, 0, 0, 0, 0, 0]⟩, 0⟩],
            ballots := [], option_order := 1 } := by
  exact ⟨by decide, by decide⟩

/-! ## The final tie-break key is not registration order (claim C2) -/

/-- C2 (refutation; the claim is the intended behaviour, the code has a
bug): the comparator's final key is `idx`, the candidate's position in the
transient `options.values().enumerate()` traversal of the `HashMap`, not
the registration number stored in the (never-read) `order` field.  The two
`add_option` calls `add_option 0; add_option 1` can leave the map
iterating [1, 0] (iteration order is up to the random hasher); both
candidates then carry identical all-zero metrics — equal on all six
statistical keys — yet the sort ranks the later-registered candidate
(order 1) above the earlier-registered one (order 0). -/
theorem C2_sort_ignores_registration_order :
    buildE [((0 : Nat), 0), (1, 0)] [] = .ok exSwapped ∧
    (exSwapped.sort_options_by_score).map
        (fun l => l.map fun c => (c.option.value, c.option.order)) =
      .ok [(1, 1), (0, 0)] ∧
    exSwapped.options.map VotingOption.metrics =
      [ScoreMetrics.default, ScoreMetrics.default] := by
  exact ⟨by decide, by decide, by decide⟩

/-! ## Same build sequence, different outcomes (claim C3) -/

/-- C3 (refutation; the claim is the intended behaviour, the code has a
bug): two elections built by the *same* `add_option` calls (candidates
0, 1, 2 in that order) followed by the *same* two ballots do not always
produce the same `determine_winner` outcome: the result depends on where
the randomly seeded hasher places the entries in `HashMap` iteration order
(the `pos` arguments), because the sort's final key is the iteration index.
Candidates 1 and 2 are statistically identical and dominated by leader 0,
so the code resolves the second-place tie to "the first of the tied group
in sorted order" — which is candidate 1 under iteration order [0, 1, 2]
but candidate 2 under iteration order [0, 2, 1], giving two different
`RunoffResult`s (finalist2 differs). -/
theorem C3_result_depends_on_iteration_order :
    (buildE [((0 : Nat), 0), (1, 1), (2, 2)]
        [⟨[(0, .five), (1, .four), (2, .four)]⟩,
         ⟨[(0, .five), (1, .four), (2, .four)]⟩]).map
        (fun s => s.determine_winner) =
      .ok (.ok { winner := 0, finalist1 := 0, finalist2 := 1,
                 head_to_head := (2, 0) }) ∧
    (buildE [((0 : Nat), 0), (1, 1), (2, 1)]
        [⟨[(0, .five), (1, .four), (2, .four)]⟩,
         ⟨[(0, .five), (1, .four), (2, .four)]⟩]).map
        (fun s => s.determine_winner) =
      .ok (.ok { winner := 0, finalist1 := 0, finalist2 := 2,
                 head_to_head := (2, 0) }) ∧
    ({ winner := 0, finalist1 := 0, finalist2 := 1, head_to_head := (2, 0) }
        : RunoffResult Nat) ≠
      { winner := 0, finalist1 := 0, finalist2 := 2, head_to_head := (2, 0) } := by
  exact ⟨by decide, by decide, by decide⟩

/-! ## First-place tie detection looks only at the first pair (claims C4, C5) -/

/-- C4 counterexample: an election (candidates 0, 1, 2; ballots
`{0:5, 1:5, 2:4}` and `{0:1, 1:1, 2:2}`) in which *all three* candidates
share the top total 6 — so the whole leading total-tied group is the whole
field — but candidate 2's six-bucket distribution differs from candidates
0 and 1: the group is *not* a perfect tie, so the claim requires finalists
(rank 0, rank 1) and no error, yet `select_finalists` fails with
`FirstPlaceTie` because `is_perfect_tie` inspects only the group's first
two members. -/
theorem C4_counterexample :
    (buildE [((0 : Nat), 0), (1, 1), (2, 2)]
        [⟨[(0, .five), (1, .five), (2, .four)]⟩,
         ⟨[(0, .one), (1, .one), (2, .two)]⟩]).map
        (fun s => s.select_finalists) = .ok (.error .firstPlaceTie) ∧
    (buildE [((0 : Nat), 0), (1, 1), (2, 2)]
        [⟨[(0, .five), (1, .five), (2, .four)]⟩,
         ⟨[(0, .one), (1, .one), (2, .two)]⟩]).map
        (fun s => (s.sort_options_by_score).map fun l => l.map fun c =>
          (c.option.metrics.total, c.option.metrics.by_value)) =
      .ok (.ok [(6, [0, 1, 0, 0, 0, 1]), (6, [0, 1, 0, 0, 0, 1]),
                (6, [0, 0, 1, 0, 1, 0])]) ∧
    ([0, 1, 0, 0, 0, 1] : List Nat) ≠ [0, 0, 1, 0, 1, 0] := by
  exact ⟨by decide, by decide, by decide⟩

/-- C4 as amended: for every election whose sorted order starts with two
candidates sharing the top total, finalist selection fails with
`FirstPlaceTie` if and only if *the first two candidates of the sorted
order* (not every member of the total-tied group) have identical six-bucket
distributions; otherwise the finalists are ranks 0 and 1 of the sorted
order and no error is raised. -/
theorem C4_amended [DecidableEq T] (s : Election T) (a b : SortedOption T)
    (rest : List (SortedOption T))
    (hs : s.sort_options_by_score = .ok (a :: b :: rest))
    (ht : a.option.metrics.total = b.option.metrics.total) :
    s.select_finalists =
      if a.option.metrics.by_value = b.option.metrics.by_value
      then .error .firstPlaceTie
      else .ok (a.option, b.option) := by
  unfold Election.select_finalists
  rw [hs]
  dsimp only
  have hw : windows2 (a :: b :: rest) = (a, b) :: windows2 (b :: rest) := rfl
  have htw : eqTotal (a, b) = true := by simp [eqTotal, ht]
  rw [hw, List.takeWhile_cons_of_pos htw]
  rw [if_pos (by simp)]
  simp only [List.length_cons, List.take_succ_cons]
  have hperf :
      Election.is_perfect_tie
        (a :: b :: rest.take ((windows2 (b :: rest)).takeWhile eqTotal).length) =
      (decide (a.option.metrics.by_value = b.option.metrics.by_value) &&
       decide (nonzeroCount a.option.metrics = nonzeroCount b.option.metrics)) := rfl
  by_cases hbv : a.option.metrics.by_value = b.option.metrics.by_value
  · have hnz : nonzeroCount a.option.metrics = nonzeroCount b.option.metrics := by
      unfold nonzeroCount
      rw [hbv]
    rw [if_pos hbv]
    rw [if_pos (by rw [hperf, decide_eq_true hbv, decide_eq_true hnz]; rfl)]
  · rw [if_neg hbv]
    rw [if_neg (by rw [hperf, decide_eq_false hbv]; simp)]

/-- Witness for the amended C4, at the two-candidate perfect tie. -/
theorem C4_amended_witness :
    exTie.select_finalists = .error .firstPlaceTie :=
  C4_amended exTie
    ⟨⟨0, ⟨10, [0, 0, 0, 0, 0, 2]⟩, 0⟩, 0⟩
    ⟨⟨1, ⟨10, [0, 0, 0, 0, 0, 2]⟩, 1⟩, 1⟩
    [] (by decide) (by decide)

/-- C5 counterexample: candidates 0 (leader, total 7) and 1, 2, 3 all with
total 6, so the total-tied group starting at rank 1 is {1, 2, 3}.
Candidates 1 and 2 have identical distributions but candidate 3's differs:
the group is *not* a perfect tie, so the claim requires finalists
(rank 0, first of the group) with no error — yet the code, seeing the
identical first pair, treats the whole group as perfectly tied, finds that
the leader does not strictly beat candidate 3 head-to-head (1 to 1), and
fails with `SecondPlaceTie`. -/
theorem C5_counterexample :
    (buildE [((0 : Nat), 0), (1, 1), (2, 2), (3, 3)]
        [⟨[(0, .two), (1, .five), (2, .five), (3, .four)]⟩,
         ⟨[(0, .two), (1, .one), (2, .one), (3, .two)]⟩,
         ⟨[(0, .three), (1, .zero), (2, .zero), (3, .zero)]⟩]).map
        (fun s => s.select_finalists) = .ok (.error .secondPlaceTie) ∧
    (buildE [((0 : Nat), 0), (1, 1), (2, 2), (3, 3)]
        [⟨[(0, .two), (1, .five), (2, .five), (3, .four)]⟩,
         ⟨[(0, .two), (1, .one), (2, .one), (3, .two)]⟩,
         ⟨[(0, .three), (1, .zero), (2, .zero), (3, .zero)]⟩]).map
        (fun s => (s.sort_options_by_score).map fun l => l.map fun c =>
          (c.option.value, c.option.metrics.total, c.option.metrics.by_value)) =
      .ok (.ok [(0, 7, [0, 0, 2, 1, 0, 0]), (1, 6, [1, 1, 0, 0, 0, 1]),
                (2, 6, [1, 1, 0, 0, 0, 1]), (3, 6, [1, 0, 1, 0, 1, 0])]) ∧
    ([1, 1, 0, 0, 0, 1] : List Nat) ≠ [1, 0, 1, 0, 1, 0] := by
  exact ⟨by decide, by decide, by decide⟩

/-- C5 as amended: for every election whose sorted order has a strict
leader at rank 0 and candidates at ranks 1 and 2 sharing the next total,
the code treats the total-tied group starting at rank 1 as a perfect tie
iff *its first two members* (ranks 1 and 2) have identical distributions:
in that case it returns (rank 0, rank 1) when the leader strictly beats
every member of the group head-to-head and fails with `SecondPlaceTie`
otherwise; when ranks 1 and 2 differ in distribution it returns
(rank 0, rank 1) with no error. -/
theorem C5_amended [DecidableEq T] (s : Election T) (a b c : SortedOption T)
    (rest : List (SortedOption T))
    (hs : s.sort_options_by_score = .ok (a :: b :: c :: rest))
    (h1 : b.option.metrics.total < a.option.metrics.total)
    (h2 : b.option.metrics.total = c.option.metrics.total) :
    s.select_finalists =
      (let tied :=
        b :: c :: rest.take ((windows2 (c :: rest)).takeWhile eqTotal).length
       if b.option.metrics.by_value = c.option.metrics.by_value then
         if tied.all fun d =>
             let v := s.get_head_to_head_votes a.option.value d.option.value
             decide (v.2 < v.1)
         then .ok (a.option, b.option)
         else .error .secondPlaceTie
       else .ok (a.option, b.option)) := by
  unfold Election.select_finalists
  rw [hs]
  dsimp only
  have hw : windows2 (a :: b :: c :: rest) =
      (a, b) :: (b, c) :: windows2 (c :: rest) := rfl
  have hta : eqTotal (a, b) = false := by
    simp only [eqTotal, decide_eq_false_iff_not]
    omega
  have htb : eqTotal (b, c) = true := by simp [eqTotal, h2]
  rw [hw, List.takeWhile_cons_of_neg (by simp [hta])]
  rw [if_neg (by simp)]
  have hd1 : (((a, b) :: (b, c) :: windows2 (c :: rest)).drop 1) =
      (b, c) :: windows2 (c :: rest) := rfl
  rw [hd1, List.takeWhile_cons_of_pos htb]
  rw [if_pos (by simp)]
  have hd2 : ((a :: b :: c :: rest).drop 1) = b :: c :: rest := rfl
  rw [hd2]
  simp only [List.length_cons, List.take_succ_cons]
  have hperf :
      Election.is_perfect_tie
        (b :: c :: rest.take ((windows2 (c :: rest)).takeWhile eqTotal).length) =
      (decide (b.option.metrics.by_value = c.option.metrics.by_value) &&
       decide (nonzeroCount b.option.metrics = nonzeroCount c.option.metrics)) := rfl
  by_cases hbv : b.option.metrics.by_value = c.option.metrics.by_value
  · have hnz : nonzeroCount b.option.metrics = nonzeroCount c.option.metrics := by
      unfold nonzeroCount
      rw [hbv]
    rw [if_pos hbv]
    rw [if_pos (by rw [hperf, decide_eq_true hbv, decide_eq_true hnz]; rfl)]
  · rw [if_neg hbv]
    rw [if_neg (by rw [hperf, decide_eq_false hbv]; simp)]

/-! ## The metrics invariant (claim C7) -/

-- Incrementing one bucket adds its index weight to the weighted sum.
theorem weightedFrom_set (l : List Nat) : ∀ k i, i < l.length →
    weightedFrom k (l.set i (l.getD i 0 + 1)) = weightedFrom k l + (k + i) := by
  induction l with
  | nil =>
    intro k i h
    cases h
  | cons x xs ih =>
    intro k i h
    cases i with
    | zero =>
      show weightedFrom k ((x + 1) :: xs) = weightedFrom k (x :: xs) + (k + 0)
      simp only [weightedFrom, Nat.mul_succ]
      omega
    | succ i =>
      show weightedFrom k (x :: xs.set i (xs.getD i 0 + 1)) =
        weightedFrom k (x :: xs) + (k + (i + 1))
      simp only [weightedFrom]
      have := ih (k + 1) i (by simpa using h)
      omega

-- Incrementing one bucket adds one to the bucket sum.
theorem sum_set_incr (l : List Nat) : ∀ i, i < l.length →
    (l.set i (l.getD i 0 + 1)).sum = l.sum + 1 := by
  induction l with
  | nil =>
    intro i h
    cases h
  | cons x xs ih =>
    intro i h
    cases i with
    | zero =>
      show ((x + 1) :: xs).sum = (x :: xs).sum + 1
      simp only [List.sum_cons]
      omega
    | succ i =>
      show (x :: xs.set i (xs.getD i 0 + 1)).sum = (x :: xs).sum + 1
      simp only [List.sum_cons]
      have := ih i (by simpa using h)
      omega

theorem score_toNat_lt (sc : Score) : sc.toNat < 6 := by
  cases sc <;> simp [Score.toNat]

theorem record_len (m : ScoreMetrics) (sc : Score) (h : m.by_value.length = 6) :
    (m.record sc).by_value.length = 6 := by
  simp [ScoreMetrics.record, h]

theorem record_total (m : ScoreMetrics) (sc : Score)
    (hlen : m.by_value.length = 6) (ht : m.total = weightedSum m.by_value) :
    (m.record sc).total = weightedSum (m.record sc).by_value := by
  have hi : sc.toNat < m.by_value.length := by
    rw [hlen]
    exact score_toNat_lt sc
  unfold weightedSum at ht ⊢
  simp only [ScoreMetrics.record]
  rw [weightedFrom_set _ 0 _ hi]
  omega

theorem record_sum (m : ScoreMetrics) (sc : Score)
    (hlen : m.by_value.length = 6) :
    (m.record sc).by_value.sum = m.by_value.sum + 1 := by
  have hi : sc.toNat < m.by_value.length := by
    rw [hlen]
    exact score_toNat_lt sc
  simp only [ScoreMetrics.record]
  exact sum_set_incr _ _ hi

-- Folding `record` over a list of entries keeps the length-6 and
-- total/weighted-sum invariants and adds the number of entries to the
-- bucket sum.
theorem foldRecord_inv (es : List (T × Score)) : ∀ m : ScoreMetrics,
    m.by_value.length = 6 → m.total = weightedSum m.by_value →
    (es.foldl (fun acc e => acc.record e.2) m).by_value.length = 6 ∧
    (es.foldl (fun acc e => acc.record e.2) m).total =
      weightedSum (es.foldl (fun acc e => acc.record e.2) m).by_value ∧
    (es.foldl (fun acc e => acc.record e.2) m).by_value.sum =
      m.by_value.sum + es.length := by
  induction es with
  | nil =>
    intro m h1 h2
    exact ⟨h1, h2, by simp⟩
  | cons e rest ih =>
    intro m h1 h2
    simp only [List.foldl_cons, List.length_cons]
    obtain ⟨a1, a2, a3⟩ := ih (m.record e.2) (record_len _ _ h1) (record_total _ _ h1 h2)
    refine ⟨a1, a2, ?_⟩
    rw [a3, record_sum _ _ h1]
    omega

theorem updOption_value [DecidableEq T] (t : T) (sc : Score)
    (o : VotingOption T) : (updOption t sc o).value = o.value := by
  unfold updOption
  split <;> rfl

-- A successful cast loop maps every option to itself with the scores of
-- its matching ballot entries recorded.
theorem castLoop_ok_map [DecidableEq T] (entries : List (T × Score)) :
    ∀ opts : List (VotingOption T), (castLoop opts entries).1 = .ok () →
    (castLoop opts entries).2 = opts.map (applyBallotTo entries) := by
  induction entries with
  | nil =>
    intro opts _
    show opts = _
    have hfn : applyBallotTo ([] : List (T × Score)) = fun o : VotingOption T => o := by
      funext o
      rfl
    rw [hfn, List.map_id']
  | cons e rest ih =>
    obtain ⟨t, sc⟩ := e
    intro opts h
    by_cases hmem : (opts.any fun o => decide (o.value = t)) = true
    · have hred : castLoop opts ((t, sc) :: rest) =
          castLoop (opts.map (updOption t sc)) rest := by
        simp [castLoop, hmem]
      rw [hred] at h
      rw [hred, ih _ h, List.map_map]
      congr 1
      funext o
      show applyBallotTo rest (updOption t sc o) = applyBallotTo ((t, sc) :: rest) o
      by_cases hv : o.value = t
      · have hu : updOption t sc o = { o with metrics := o.metrics.record sc } := by
          unfold updOption
          rw [if_pos hv]
        have hf : (((t, sc) :: rest).filter fun e => decide (e.1 = o.value)) =
            (t, sc) :: (rest.filter fun e => decide (e.1 = o.value)) :=
          List.filter_cons_of_pos (by simp [hv.symm])
        unfold applyBallotTo
        rw [hu]
        simp only [hf]
        rfl
      · have hu : updOption t sc o = o := by
          unfold updOption
          rw [if_neg hv]
        have hf : (((t, sc) :: rest).filter fun e => decide (e.1 = o.value)) =
            rest.filter fun e => decide (e.1 = o.value) := by
          refine List.filter_cons_of_neg ?_
          simp only [decide_eq_true_eq]
          exact fun hh => hv hh.symm
        unfold applyBallotTo
        rw [hu]
        simp only [hf]
    · exfalso
      have hred : castLoop opts ((t, sc) :: rest) = (.error (.invalidOption t), opts) := by
        simp [castLoop, hmem]
      rw [hred] at h
      cases h

-- A successful cast loop only happens when every ballot entry references
-- a registered candidate.
theorem castLoop_ok_keys [DecidableEq T] (entries : List (T × Score)) :
    ∀ opts : List (VotingOption T), (castLoop opts entries).1 = .ok () →
    ∀ p ∈ entries, ∃ o ∈ opts, o.value = p.1 := by
  induction entries with
  | nil =>
    intro opts _ p hp
    cases hp
  | cons e rest ih =>
    obtain ⟨t, sc⟩ := e
    intro opts h p hp
    by_cases hmem : (opts.any fun o => decide (o.value = t)) = true
    · rcases List.mem_cons.mp hp with rfl | hp'
      · obtain ⟨o, ho, hv⟩ := List.any_eq_true.mp hmem
        exact ⟨o, ho, of_decide_eq_true hv⟩
      · have hred : castLoop opts ((t, sc) :: rest) =
            castLoop (opts.map (updOption t sc)) rest := by
          simp [castLoop, hmem]
        rw [hred] at h
        obtain ⟨o', ho', hv'⟩ := ih _ h p hp'
        obtain ⟨o, ho, rfl⟩ := List.mem_map.mp ho'
        refine ⟨o, ho, ?_⟩
        rw [← updOption_value t sc o]
        exact hv'
    · exfalso
      have hred : castLoop opts ((t, sc) :: rest) = (.error (.invalidOption t), opts) := by
        simp [castLoop, hmem]
      rw [hred] at h
      cases h

-- With unique keys (a `HashMap` invariant of the ballot), the number of
-- entries matching a candidate is 1 when a lookup succeeds and 0 when it
-- fails.
theorem filter_key_length [DecidableEq T] (l : List (T × Score)) (v : T)
    (hnd : (l.map Prod.fst).Nodup) :
    (l.filter fun e => decide (e.1 = v)).length =
      if (l.find? fun e => decide (e.1 = v)).isSome then 1 else 0 := by
  induction l with
  | nil => simp
  | cons e rest ih =>
    simp only [List.map_cons, List.nodup_cons] at hnd
    by_cases he : e.1 = v
    · rw [List.filter_cons_of_pos (by simp [he]),
        List.find?_cons_of_pos _ (by simp [he])]
      have hnil : (rest.filter fun x => decide (x.1 = v)) = [] := by
        rw [List.filter_eq_nil_iff]
        intro x hx
        simp only [decide_eq_true_eq]
        intro hxv
        exact hnd.1 (List.mem_map.mpr ⟨x, hx, by rw [hxv, ← he]⟩)
      rw [hnil]
      simp
    · rw [List.filter_cons_of_neg (by simp [he]),
        List.find?_cons_of_neg _ (by simp [he])]
      exact ih hnd.2

-- Inserting at any position yields a permutation of consing.
theorem insertAt_perm (xs : List α) (pos : Nat) (x : α) :
    (insertAt xs pos x).Perm (x :: xs) := by
  unfold insertAt
  have h1 : (xs.take pos ++ x :: xs.drop pos).Perm
      (x :: (xs.take pos ++ xs.drop pos)) := List.perm_middle
  rw [List.take_append_drop] at h1
  exact h1

-- A successful cast with a unique-key ballot preserves the consistency
-- invariant.
theorem cast_preserves [DecidableEq T] (s : Election T) (b : Ballot T)
    (hnd : (b.scores.map Prod.fst).Nodup)
    (hok : (s.cast_ballot b).1 = .ok ())
    (hinv : MetricsConsistent s) :
    MetricsConsistent (s.cast_ballot b).2 := by
  rcases hcl : castLoop s.options b.scores with ⟨res, opts'⟩
  have hok' : res = .ok () := by
    unfold Election.cast_ballot at hok
    rw [hcl] at hok
    rcases res with e | u
    · cases hok
    · cases u
      rfl
  subst hok'
  have hstate : (s.cast_ballot b).2 =
      { s with options := opts', ballots := s.ballots ++ [b] } := by
    unfold Election.cast_ballot
    rw [hcl]
  have h1 : (castLoop s.options b.scores).1 = .ok () := by rw [hcl]
  have hmap : opts' = s.options.map (applyBallotTo b.scores) := by
    have h2 := castLoop_ok_map b.scores s.options h1
    rw [hcl] at h2
    exact h2
  rw [hstate]
  constructor
  · intro o' ho'
    dsimp only at ho'
    rw [hmap] at ho'
    obtain ⟨o, ho, rfl⟩ := List.mem_map.mp ho'
    obtain ⟨hlen, htw, hsum⟩ := hinv.1 o ho
    obtain ⟨f1, f2, f3⟩ :=
      foldRecord_inv (b.scores.filter fun e => decide (e.1 = o.value))
        o.metrics hlen htw
    refine ⟨f1, f2, ?_⟩
    have hcount : ballotCountFor (s.ballots ++ [b]) o.value =
        ballotCountFor s.ballots o.value +
          (if (b.get o.value).isSome then 1 else 0) := by
      unfold ballotCountFor
      rw [List.countP_append]
      simp [List.countP_cons]
    have hfl : (b.scores.filter fun e => decide (e.1 = o.value)).length =
        if (b.get o.value).isSome then 1 else 0 := by
      rw [filter_key_length _ _ hnd]
      unfold Ballot.get
      have hmapIsSome :
          ((b.scores.find? fun p => decide (p.1 = o.value)).map fun p => p.2).isSome =
            (b.scores.find? fun p => decide (p.1 = o.value)).isSome := by
        cases b.scores.find? fun p => decide (p.1 = o.value) <;> rfl
      rw [hmapIsSome]
    show (applyBallotTo b.scores o).metrics.by_value.sum =
      ballotCountFor (s.ballots ++ [b]) (applyBallotTo b.scores o).value
    have hv : (applyBallotTo b.scores o).value = o.value := rfl
    rw [hv]
    have hm : (applyBallotTo b.scores o).metrics =
        (b.scores.filter fun e => decide (e.1 = o.value)).foldl
          (fun acc e => acc.record e.2) o.metrics := rfl
    rw [hm, f3, hsum, hcount, hfl]
  · intro b' hb' p hp
    dsimp only at hb'
    rcases List.mem_append.mp hb' with hb'' | hb''
    · obtain ⟨o, ho, hv⟩ := hinv.2 b' hb'' p hp
      refine ⟨applyBallotTo b.scores o, ?_, hv⟩
      dsimp only
      rw [hmap]
      exact List.mem_map_of_mem _ ho
    · have hb3 : b' = b := by simpa using hb''
      subst hb3
      obtain ⟨o, ho, hv⟩ := castLoop_ok_keys b'.scores s.options h1 p hp
      refine ⟨applyBallotTo b'.scores o, ?_, hv⟩
      dsimp only
      rw [hmap]
      exact List.mem_map_of_mem _ ho

-- Registration preserves the consistency invariant (whether it succeeds
-- or is rejected as a duplicate).
theorem add_preserves [DecidableEq T] (s : Election T) (t : T) (pos : Nat)
    (hinv : MetricsConsistent s) :
    MetricsConsistent (applyOp s (Op.addOption t pos)) := by
  unfold applyOp
  dsimp only
  rcases ha : s.add_option t pos with e | s'
  · exact hinv
  · show MetricsConsistent s'
    unfold Election.add_option at ha
    by_cases hmem : (s.options.any fun o => decide (o.value = t)) = true
    · rw [if_pos hmem] at ha
      cases ha
    · rw [if_neg hmem] at ha
      injection ha with ha'
      subst ha'
      constructor
      · intro o ho
        dsimp only at ho
        have hperm := insertAt_perm s.options pos (VotingOption.new t s.option_order)
        rcases List.mem_cons.mp (hperm.mem_iff.mp ho) with rfl | ho'
        · refine ⟨rfl, rfl, ?_⟩
          have hzero : ballotCountFor s.ballots t = 0 := by
            unfold ballotCountFor
            rw [List.countP_eq_zero]
            intro b hb
            simp only [Ballot.get]
            have hmapIsSome :
                ((b.scores.find? fun p => decide (p.1 = t)).map fun p => p.2).isSome =
                  (b.scores.find? fun p => decide (p.1 = t)).isSome := by
              cases b.scores.find? fun p => decide (p.1 = t) <;> rfl
            rw [hmapIsSome]
            intro hsome
            obtain ⟨p, hp, hpt⟩ := List.find?_isSome.mp hsome
            obtain ⟨o2, ho2, hv2⟩ := hinv.2 b hb p hp
            exact hmem (List.any_eq_true.mpr ⟨o2, ho2, by rw [hv2]; exact hpt⟩)
          have hv : (VotingOption.new t s.option_order).value = t := rfl
          show ((VotingOption.new t s.option_order).metrics.by_value).sum =
            ballotCountFor s.ballots (VotingOption.new t s.option_order).value
          rw [hv, hzero]
          rfl
        · exact hinv.1 o ho'
      · intro b hb p hp
        dsimp only at hb
        obtain ⟨o, ho, hv⟩ := hinv.2 b hb p hp
        have hperm := insertAt_perm s.options pos (VotingOption.new t s.option_order)
        exact ⟨o, hperm.mem_iff.mpr (List.mem_cons.mpr (Or.inr ho)), hv⟩

theorem consistent_new {T : Type} [DecidableEq T] :
    MetricsConsistent (@Election.new T) := by
  constructor
  · intro o ho
    cases ho
  · intro b hb
    cases hb

theorem consistent_applyOp [DecidableEq T] (s : Election T) (op : Op T)
    (hok : opOk s op) (hinv : MetricsConsistent s) :
    MetricsConsistent (applyOp s op) := by
  cases op with
  | addOption t pos => exact add_preserves s t pos hinv
  | castBallot b =>
    show MetricsConsistent (s.cast_ballot b).2
    exact cast_preserves s b hok.1 hok.2 hinv

theorem consistent_runOps [DecidableEq T] (ops : List (Op T)) :
    ∀ s : Election T, opsOk s ops → MetricsConsistent s →
      MetricsConsistent (runOps s ops) := by
  induction ops with
  | nil =>
    intro s _ hinv
    exact hinv
  | cons op rest ih =>
    intro s hok hinv
    exact ih _ hok.2 (consistent_applyOp s op hok.1 hinv)

/-- C7: for every election reached from the empty election by a sequence
of `add_option` and `cast_ballot` calls in which every cast succeeded (and
every cast ballot has unique keys, as `HashMap`-backed ballots do), every
candidate's metrics satisfy `total = Σ v * by_value[v]` and
`Σ by_value = number of logged ballots that score the candidate`. -/
theorem C7_metrics_invariant [DecidableEq T] (ops : List (Op T))
    (hok : opsOk Election.new ops) :
    ∀ o ∈ (runOps Election.new ops).options,
      o.metrics.total = weightedSum o.metrics.by_value ∧
      o.metrics.by_value.sum =
        ballotCountFor (runOps Election.new ops).ballots o.value := by
  intro o ho
  obtain ⟨_, h2, h3⟩ :=
    (consistent_runOps ops Election.new hok consistent_new).1 o ho
  exact ⟨h2, h3⟩

/-- Witness for C7: register candidates 0 and 1 and cast `{0:5, 1:4}`;
candidate 0's metrics then carry total 5 with one score-5 bucket, matching
the weighted sum and the single logged ballot scoring it. -/
theorem C7_witness :
    (⟨0, ⟨5, [0, 0, 0, 0, 0, 1]⟩, 0⟩ : VotingOption Nat).metrics.total =
      weightedSum (⟨0, ⟨5, [0, 0, 0, 0, 0, 1]⟩, 0⟩
        : VotingOption Nat).metrics.by_value ∧
    (⟨0, ⟨5, [0, 0, 0, 0, 0, 1]⟩, 0⟩
        : VotingOption Nat).metrics.by_value.sum =
      ballotCountFor
        (runOps (@Election.new Nat)
          [.addOption 0 0, .addOption 1 1,
           .castBallot ⟨[(0, .five), (1, .four)]⟩]).ballots 0 :=
  C7_metrics_invariant
    [.addOption 0 0, .addOption 1 1,
     .castBallot ⟨[(0, .five), (1, .four)]⟩]
    ⟨trivial, trivial, ⟨by decide, by decide⟩, trivial⟩
    ⟨0, ⟨5, [0, 0, 0, 0, 0, 1]⟩, 0⟩ (by decide)

/-- Witness for the amended C5: the leader dominates the perfectly tied
pair head-to-head, so finalists are (leader, first of the pair). -/
theorem C5_amended_witness :
    exDominated.select_finalists =
      .ok (⟨0, ⟨10, [0, 0, 0, 0, 0, 2]⟩, 0⟩, ⟨1, ⟨8, [0, 0, 0, 0, 2, 0]⟩, 1⟩) :=
  C5_amended exDominated
    ⟨⟨0, ⟨10, [0, 0, 0, 0, 0, 2]⟩, 0⟩, 0⟩
    ⟨⟨1, ⟨8, [0, 0, 0, 0, 2, 0]⟩, 1⟩, 1⟩
    ⟨⟨2, ⟨8, [0, 0, 0, 0, 2, 0]⟩, 2⟩, 2⟩
    [] (by decide) (by decide) (by decide)

end StarLogic

namespace StarLogic

/-!
## Sanity checks

The embedding reproduces the outcomes asserted by the repository's own
unit tests (`shared/src/tests.rs`), with candidates renamed 0, 1, 2, 3 in
registration order and the hasher placing entries in insertion order.
-/

-- test_winner_determination
example :
    (buildE [(0, 0), (1, 1), (2, 2)]
      [(⟨[(0, .five), (1, .four), (2, .zero)]⟩ : Ballot Nat),
       ⟨[(0, .four), (1, .three), (2, .zero)]⟩,
       ⟨[(0, .four), (1, .three), (2, .zero)]⟩,
       ⟨[(0, .three), (1, .two), (2, .zero)]⟩]).map
      (fun s => s.determine_winner) =
    .ok (.ok { winner := 0, finalist1 := 0, finalist2 := 1,
               head_to_head := (4, 0) }) := by
  decide

-- test_ties, second scenario
example :
    (buildE [(0, 0), (1, 1), (2, 2)]
      [(⟨[(0, .five), (1, .three), (2, .three)]⟩ : Ballot Nat),
       ⟨[(0, .four), (1, .three), (2, .three)]⟩,
       ⟨[(0, .four), (1, .three), (2, .three)]⟩,
       ⟨[(0, .zero), (1, .three), (2, .three)]⟩]).map
      (fun s => s.determine_winner) =
    .ok (.ok { winner := 0, finalist1 := 0, finalist2 := 1,
               head_to_head := (3, 1) }) := by
  decide

-- test_edge_cases: no candidates
example :
    (buildE ([] : List (Nat × Nat)) []).map (fun s => s.determine_winner) =
    .ok (.error .insufficientOptions) := by decide

-- test_large_tie_scenario
example :
    (buildE [(0, 0), (1, 1), (2, 2), (3, 3)]
      [(⟨[(0, .five), (1, .five), (2, .five), (3, .five)]⟩ : Ballot Nat),
       ⟨[(0, .five), (1, .five), (2, .five), (3, .five)]⟩]).map
      (fun s => s.determine_winner) =
    .ok (.error .firstPlaceTie) := by decide

-- test_close_runoff
example :
    (buildE [(0, 0), (1, 1), (2, 2)]
      [(⟨[(0, .four), (1, .four), (2, .zero)]⟩ : Ballot Nat),
       ⟨[(0, .four), (1, .three), (2, .zero)]⟩,
       ⟨[(0, .three), (1, .five), (2, .one)]⟩]).map
      (fun s => s.determine_winner) =
    .ok (.ok { winner := 1, finalist1 := 1, finalist2 := 0,
               head_to_head := (1, 1) }) := by
  decide

end StarLogic
